import Mathlib

/-!
Verification development for `src/app/main.py` of `user-analysis-web`.

The program ingests one spreadsheet of user lifecycle timestamps and runs one
of three funnel analyses (`analyze_module1/2/3`): validate required columns,
coerce timestamp columns in place (`_safe_to_datetime`, unparseable cells
become missing), filter the denominator population, compute per-row day
deltas, classify them into fixed ordered buckets, and assemble a report with
counts, ratios, derived scalars and a sum check.  Chart rasterisation to
base64 PNG is out of scope per the spec; a chart payload is modelled as
either the empty string or a rendered figure carrying the plotted values.

Timestamps are modelled as rationals (seconds since the epoch), day deltas as
exact rationals; a table is a list of rows together with column-presence
flags, and the in-place mutation of the input table is modelled by returning
the table alongside the analysis output.
-/

namespace UAW

/-- Cell of a spreadsheet column: `na` is a missing value (NaN/NaT), `raw` is
a present but unparseable value, `ts t` is a timestamp, `t` rational seconds
since the epoch. -/
inductive Cell where
  | na : Cell
  | raw : Cell
  | ts : ℚ → Cell
  deriving DecidableEq, Repr

/-- pandas `Series.notna` on one cell: only `na` is missing. -/
def Cell.notna : Cell → Bool
  | .na => false
  | .raw => true
  | .ts _ => true

/-- pandas `Series.isna` on one cell. -/
def Cell.isna (c : Cell) : Bool := !c.notna

/-- View a cell as a timestamp in seconds. -/
def Cell.toTime : Cell → Option ℚ
  | .ts t => some t
  | _ => none

/-- `pd.to_datetime(x, errors="coerce")` on one cell: an unparseable value
becomes missing, a timestamp is kept, a missing value stays missing. -/
def coerceCell : Cell → Cell
  | .raw => .na
  | .na => .na
  | .ts t => .ts t

/-- One user record: the five timestamp columns of the sheet
(注册时间, 体验金领取时间, 首充时间, 二充时间, 升级PLUS时间) plus the cells of
any extra columns, which the pipeline ignores. -/
structure Row where
  reg : Cell
  exp : Cell
  first : Cell
  second : Cell
  plus : Cell
  extra : List Cell
  deriving DecidableEq, Repr

/-- The five known column identifiers. -/
inductive Col where
  | reg | exp | first | second | plus
  deriving DecidableEq, Repr

/-- Column header strings, as in the `COL_*` constants of `main.py`. -/
def Col.name : Col → String
  | .reg => "注册时间"
  | .exp => "体验金领取时间"
  | .first => "首充时间"
  | .second => "二充时间"
  | .plus => "升级PLUS时间"

/-- An uploaded table: presence flags for the five known columns and the
rows.  When a flag is false the corresponding field of each row is
meaningless and never consulted. -/
structure Table where
  hasReg : Bool
  hasExp : Bool
  hasFirst : Bool
  hasSecond : Bool
  hasPlus : Bool
  rows : List Row
  deriving DecidableEq, Repr

/-- Whether column `c` exists in the table (`c in df.columns`). -/
def Table.hasCol (t : Table) : Col → Bool
  | .reg => t.hasReg
  | .exp => t.hasExp
  | .first => t.hasFirst
  | .second => t.hasSecond
  | .plus => t.hasPlus

/-- `_missing_cols(df, cols)`: the required columns absent from the table,
in the order requested. -/
def missing_cols (t : Table) (cols : List Col) : List Col :=
  cols.filter (fun c => !t.hasCol c)

/-- Coerce a cell when the guard holds, used to model that
`_safe_to_datetime` touches a column only when it is listed and present. -/
def coerceIf (b : Bool) (c : Cell) : Cell := if b then coerceCell c else c

/-- `_safe_to_datetime(df, cols)`: replace every listed, existing column by
its `to_datetime` coercion; all other columns are untouched.  The source
mutates `df` in place; here the updated table is returned. -/
def safe_to_datetime (t : Table) (cols : List Col) : Table :=
  { t with rows := t.rows.map (fun r =>
      { r with
        reg := coerceIf (cols.contains Col.reg && t.hasReg) r.reg
        exp := coerceIf (cols.contains Col.exp && t.hasExp) r.exp
        first := coerceIf (cols.contains Col.first && t.hasFirst) r.first
        second := coerceIf (cols.contains Col.second && t.hasSecond) r.second
        plus := coerceIf (cols.contains Col.plus && t.hasPlus) r.plus }) }

/-- `(succ - pred).dt.total_seconds() / 86400.0`: the signed day delta,
undefined when either endpoint is not a timestamp. -/
def delta_days (succ pred : Cell) : Option ℚ :=
  match succ.toTime, pred.toTime with
  | some s, some p => some ((s - p) / 86400)
  | _, _ => none

/-- Round a rational to the nearest integer, ties to even, modelling
Python `round` on an exactly representable value. -/
def roundHalfEven (q : ℚ) : ℤ :=
  if q - ⌊q⌋ < 1/2 then ⌊q⌋
  else if q - ⌊q⌋ > 1/2 then ⌊q⌋ + 1
  else if 2 ∣ ⌊q⌋ then ⌊q⌋ else ⌊q⌋ + 1

/-- `round(x, d)`: round to `d` decimal places, ties to even. -/
def roundTo (d : ℕ) (q : ℚ) : ℚ := (roundHalfEven (q * 10 ^ d) : ℚ) / 10 ^ d

/-- A chart payload of the response: the empty string (short-circuit paths
return `""`), or a rendered base64 PNG figure, abstracted to the list of
values it plots (rasterisation is an external concern per the spec). -/
inductive Chart where
  | empty : Chart
  | rendered : List ℕ → Chart
  deriving DecidableEq, Repr

/-- The tuple a stage function returns:
`(result, pie_b64, bar_b64, errors, warnings)`. -/
structure StageOut (R : Type) where
  result : R
  pie : Chart
  bar : Chart
  errors : List String
  warnings : List String
  deriving DecidableEq, Repr

/-- The single error message of the missing-column path:
`"缺少列：" + ", ".join(miss)`. -/
def errMsg (miss : List Col) : String :=
  "缺少列：" ++ String.intercalate ", " (miss.map Col.name)

/-- `ok` flag of the `/run` endpoint response: `len(errors) == 0`. -/
def runOk (errors : List String) : Bool := errors.length == 0

/-! ### Stage 1: 体验金 → 首充 (denominator = rows with 首充时间 present) -/

/-- Stage-1 buckets, in the source order of `order` in `analyze_module1`:
未领取体验金(无法计算Δ), 先首充再领取体验金, 同时领取体验金并首充人群,
1-3天, 4-6天, 7-10天, 10天以上. -/
inductive B1 where
  | noExp | depositFirst | sameDay | d1to3 | d4to6 | d7to10 | over10
  deriving DecidableEq, Repr

/-- The `bucket` classifier of `analyze_module1`, first match wins. -/
def bucket1 : Option ℚ → B1
  | none => .noExp
  | some x =>
    if x < 0 then .depositFirst
    else if x < 1 then .sameDay
    else if x ≤ 3 then .d1to3
    else if x ≤ 6 then .d4to6
    else if x ≤ 10 then .d7to10
    else .over10

/-- Fixed stage-1 bucket order. -/
def order1 : List B1 :=
  [.noExp, .depositFirst, .sameDay, .d1to3, .d4to6, .d7to10, .over10]

/-- Stage-1 per-row delta: `首充时间 - 体验金领取时间` in days. -/
def m1_delta (r : Row) : Option ℚ := delta_days r.first r.exp

/-- `dist` of stage 1 at one label: `value_counts().reindex(order, 0)`. -/
def m1_dist (base : List Row) (b : B1) : ℕ :=
  base.countP (fun r => decide (bucket1 (m1_delta r) = b))

/-- Deltas that are defined and nonnegative, the population of the stage-1
average. -/
def m1_nonneg (base : List Row) : List ℚ :=
  base.filterMap (fun r =>
    match m1_delta r with
    | some x => if 0 ≤ x then some x else none
    | none => none)

/-- `base["delta_days"].mean()` over defined nonnegative deltas; `none`
models NaN on an empty selection. -/
def m1_mean (base : List Row) : Option ℚ :=
  let l := m1_nonneg base
  if l.length = 0 then none else some (l.sum / l.length)

/-- The stage-1 result dict of the full path:
总首充人数, 平均耗时, 分布(人数), 分布(占比), 分布加总校验. -/
structure Report1 where
  nFirst : ℕ
  avgDays : Option ℚ
  dist : List (B1 × ℕ)
  ratio : List (B1 × ℚ)
  sumCheck : ℕ
  deriving DecidableEq, Repr

/-- Assemble the stage-1 report from the filtered population. -/
def m1_report (base : List Row) : Report1 :=
  { nFirst := base.length
    avgDays := (m1_mean base).map (fun a => roundTo 2 a)
    dist := order1.map (fun b => (b, m1_dist base b))
    ratio := order1.map (fun b => (b, roundTo 4 ((m1_dist base b : ℚ) / base.length)))
    sumCheck := (order1.map (m1_dist base)).sum }

/-- The stage-1 result dict: `{}` on schema error, `{"完成首充用户数": n}` on
the empty-population path (the source passes `0`), or the full report. -/
inductive M1Result where
  | empty : M1Result
  | minimal : ℕ → M1Result
  | full : Report1 → M1Result
  deriving DecidableEq, Repr

/-- Post-coercion body of `analyze_module1`. -/
def m1_go (df2 : Table) : StageOut M1Result :=
  let base := df2.rows.filter (fun r => r.first.notna)
  if base.length = 0 then
    ⟨.minimal 0, .empty, .empty, [], ["首充时间全为空，无法生成分布图。"]⟩
  else
    ⟨.full (m1_report base),
     .rendered (order1.map (m1_dist base)),
     .rendered (order1.map (m1_dist base)),
     [], []⟩

/-- `analyze_module1(df)`: returns the table as left by the in-place
coercion, together with `(result, pie, bar, errors, warnings)`. -/
def analyze_module1 (df : Table) : Table × StageOut M1Result :=
  let miss := missing_cols df [Col.first, Col.exp]
  if miss ≠ [] then
    (df, ⟨.empty, .empty, .empty, [errMsg miss], []⟩)
  else
    let df2 := safe_to_datetime df [Col.reg, Col.exp, Col.first]
    (df2, m1_go df2)

/-! ### Stage 2: 首充 → 二充 (denominator = rows with 首充时间 present) -/

/-- Stage-2 labels: the five outputs of the classifier (未知,
时间倒流(二充早于首充), 1-7天, 8-14天, 15-20天, 20天以上) plus the
separately added 尚未完成二充 key. -/
inductive B2 where
  | unknown | reversed | d1to7 | d8to14 | d15to20 | over20 | notYet
  deriving DecidableEq, Repr

/-- The `bucket` classifier of `analyze_module2`, first match wins. -/
def bucket2 : Option ℚ → B2
  | none => .unknown
  | some x =>
    if x < 0 then .reversed
    else if x ≤ 7 then .d1to7
    else if x ≤ 14 then .d8to14
    else if x ≤ 20 then .d15to20
    else .over20

/-- Fixed stage-2 order (`未知` is absent, so the reindex drops it). -/
def order2 : List B2 :=
  [.d1to7, .d8to14, .d15to20, .over20, .reversed, .notYet]

/-- Stage-2 per-row delta: `二充时间 - 首充时间` in days. -/
def m2_delta (r : Row) : Option ℚ := delta_days r.second r.first

/-- Stage-2 distribution at one label of `order`: the reindex of
`value_counts()` extended with `尚未完成二充 = base_n - n_second`. -/
def m2_dist (completed : List Row) (baseN nSecond : ℕ) (b : B2) : ℕ :=
  if b = .notYet then baseN - nSecond
  else completed.countP (fun r => decide (bucket2 (m2_delta r) = b))

/-- The stage-2 result dict of the full path: 完成首充用户数(母体),
完成二充用户数, 二充转化率, 分布(人数), 分布(占比), 分布加总校验. -/
structure Report2 where
  baseN : ℕ
  nSecond : ℕ
  convRate : Option ℚ
  dist : List (B2 × ℕ)
  ratio : List (B2 × ℚ)
  sumCheck : ℕ
  deriving DecidableEq, Repr

/-- Assemble the stage-2 report from the denominator population. -/
def m2_report (base : List Row) : Report2 :=
  let completed := base.filter (fun r => r.second.notna)
  let baseN := base.length
  let nSecond := completed.length
  let d := m2_dist completed baseN nSecond
  { baseN := baseN
    nSecond := nSecond
    convRate := if baseN ≠ 0 then some (roundTo 4 ((nSecond : ℚ) / baseN)) else none
    dist := order2.map (fun b => (b, d b))
    ratio := order2.map (fun b => (b, roundTo 4 ((d b : ℚ) / baseN)))
    sumCheck := (order2.map d).sum }

/-- The stage-2 result dict: `{}`, `{"完成首充用户数(母体)": n}`, or full. -/
inductive M2Result where
  | empty : M2Result
  | minimal : ℕ → M2Result
  | full : Report2 → M2Result
  deriving DecidableEq, Repr

/-- Post-coercion body of `analyze_module2`. -/
def m2_go (df2 : Table) : StageOut M2Result :=
  let base := df2.rows.filter (fun r => r.first.notna)
  if base.length = 0 then
    ⟨.minimal 0, .empty, .empty, [], ["首充时间全为空，无法分析二充。"]⟩
  else
    let completed := base.filter (fun r => r.second.notna)
    ⟨.full (m2_report base),
     .rendered (order2.map (m2_dist completed base.length completed.length)),
     .rendered (order2.map (m2_dist completed base.length completed.length)),
     [], []⟩

/-- `analyze_module2(df)`. -/
def analyze_module2 (df : Table) : Table × StageOut M2Result :=
  let miss := missing_cols df [Col.first, Col.second]
  if miss ≠ [] then
    (df, ⟨.empty, .empty, .empty, [errMsg miss], []⟩)
  else
    let df2 := safe_to_datetime df [Col.first, Col.second]
    (df2, m2_go df2)

/-! ### Stage 3: 二充 → PLUS (denominator = rows with 二充时间 present) -/

/-- Stage-3 labels: classifier outputs (未知, 时间倒流(PLUS早于二充),
1-7天, 8-14天, 15-21天, 22-28天, 28天以上) plus the added 尚未升级PLUS. -/
inductive B3 where
  | unknown | reversed | d1to7 | d8to14 | d15to21 | d22to28 | over28 | notYet
  deriving DecidableEq, Repr

/-- The `bucket` classifier of `analyze_module3`, first match wins. -/
def bucket3 : Option ℚ → B3
  | none => .unknown
  | some x =>
    if x < 0 then .reversed
    else if x ≤ 7 then .d1to7
    else if x ≤ 14 then .d8to14
    else if x ≤ 21 then .d15to21
    else if x ≤ 28 then .d22to28
    else .over28

/-- Fixed stage-3 order (`未知` is absent, so the reindex drops it). -/
def order3 : List B3 :=
  [.d1to7, .d8to14, .d15to21, .d22to28, .over28, .reversed, .notYet]

/-- Stage-3 per-row delta: `升级PLUS时间 - 二充时间` in days. -/
def m3_delta (r : Row) : Option ℚ := delta_days r.plus r.second

/-- Stage-3 distribution at one label of `order`: the reindex of
`value_counts()` extended with `尚未升级PLUS = base_n - n_plus_after`. -/
def m3_dist (upgraded : List Row) (baseN nAfter : ℕ) (b : B3) : ℕ :=
  if b = .notYet then baseN - nAfter
  else upgraded.countP (fun r => decide (bucket3 (m3_delta r) = b))

/-- The stage-3 result dict of the full path: 全表PLUS总数, 未二充直接PLUS,
完成二充后PLUS, 完成二充用户数(母体), PLUS转化率, 分布(人数), 分布(占比),
分布加总校验. -/
structure Report3 where
  plusTotal : ℕ
  directPlus : ℕ
  nAfter : ℕ
  baseN : ℕ
  rate : Option ℚ
  dist : List (B3 × ℕ)
  ratio : List (B3 × ℚ)
  sumCheck : ℕ
  deriving DecidableEq, Repr

/-- Assemble the stage-3 report from the full coerced table. -/
def m3_report (df2 : Table) : Report3 :=
  let plusAll := df2.rows.filter (fun r => r.plus.notna)
  let base := df2.rows.filter (fun r => r.second.notna)
  let upgraded := base.filter (fun r => r.plus.notna)
  let baseN := base.length
  let nAfter := upgraded.length
  let d := m3_dist upgraded baseN nAfter
  { plusTotal := plusAll.length
    directPlus := (plusAll.filter (fun r => r.second.isna)).length
    nAfter := nAfter
    baseN := baseN
    rate := if baseN ≠ 0 then some (roundTo 4 ((nAfter : ℚ) / baseN)) else none
    dist := order3.map (fun b => (b, d b))
    ratio := order3.map (fun b => (b, roundTo 4 ((d b : ℚ) / baseN)))
    sumCheck := (order3.map d).sum }

/-- The stage-3 result dict: `{}` on schema error,
`{全表PLUS总数, 未二充直接PLUS, 完成二充用户数(母体)}` on the
empty-denominator path, or the full report. -/
inductive M3Result where
  | empty : M3Result
  | minimal : ℕ → ℕ → ℕ → M3Result
  | full : Report3 → M3Result
  deriving DecidableEq, Repr

/-- Post-coercion body of `analyze_module3`. -/
def m3_go (df2 : Table) : StageOut M3Result :=
  let plusAll := df2.rows.filter (fun r => r.plus.notna)
  let nPlusWithoutSecond := (plusAll.filter (fun r => r.second.isna)).length
  let base := df2.rows.filter (fun r => r.second.notna)
  if base.length = 0 then
    ⟨.minimal plusAll.length nPlusWithoutSecond 0, .empty, .empty, [],
     ["二充时间全为空：无法做“二充→PLUS”分布，但已返回全表PLUS来源。"]⟩
  else
    let upgraded := base.filter (fun r => r.plus.notna)
    ⟨.full (m3_report df2),
     .rendered [upgraded.length, nPlusWithoutSecond],
     .rendered (order3.map (m3_dist upgraded base.length upgraded.length)),
     [], []⟩

/-- `analyze_module3(df)`. -/
def analyze_module3 (df : Table) : Table × StageOut M3Result :=
  let miss := missing_cols df [Col.second, Col.plus]
  if miss ≠ [] then
    (df, ⟨.empty, .empty, .empty, [errMsg miss], []⟩)
  else
    let df2 := safe_to_datetime df [Col.second, Col.plus]
    (df2, m3_go df2)

/-! ### Helper lemmas -/

theorem sum_map_add_nat {α : Type} (l : List α) (f g : α → ℕ) :
    (l.map (fun x => f x + g x)).sum = (l.map f).sum + (l.map g).sum := by
  induction l with
  | nil => simp
  | cons a t ih => simp [ih]; omega

theorem sum_map_indicator_eq_count {β : Type} [DecidableEq β] (v : β) (l : List β) :
    (l.map (fun b => if v = b then 1 else 0)).sum = l.count v := by
  induction l with
  | nil => simp
  | cons a t ih =>
    by_cases h : v = a
    · subst h; simp [List.count_cons, ih]; omega
    · simp [List.count_cons, ih, h, Ne.symm h]

/-- Counting a list once per label of a duplicate-free label list that covers
every element recovers its length. -/
theorem sum_countP_eq_length {α β : Type} [DecidableEq β] (f : α → β) (order : List β)
    (hd : order.Nodup) :
    ∀ l : List α, (∀ a ∈ l, f a ∈ order) →
      (order.map (fun b => l.countP (fun x => decide (f x = b)))).sum = l.length := by
  intro l
  induction l with
  | nil => intro _; simp
  | cons a t ih =>
    intro hm
    have hstep : ∀ b : β, (a :: t).countP (fun x => decide (f x = b)) =
        t.countP (fun x => decide (f x = b)) + (if f a = b then 1 else 0) := by
      intro b
      rw [List.countP_cons]
      by_cases h : f a = b <;> simp [h]
    simp only [hstep]
    rw [sum_map_add_nat, ih (fun x hx => hm x (List.mem_cons_of_mem _ hx)),
      sum_map_indicator_eq_count,
      List.count_eq_one_of_mem hd (hm a (List.mem_cons_self _ _))]
    simp

theorem mem_order1 (v : B1) : v ∈ order1 := by cases v <;> simp [order1]

theorem bucket2_some_mem (x : ℚ) :
    bucket2 (some x) ∈ [B2.d1to7, B2.d8to14, B2.d15to20, B2.over20, B2.reversed] := by
  simp only [bucket2]
  split_ifs <;> simp

theorem bucket3_some_mem (x : ℚ) :
    bucket3 (some x) ∈
      [B3.d1to7, B3.d8to14, B3.d15to21, B3.d22to28, B3.over28, B3.reversed] := by
  simp only [bucket3]
  split_ifs <;> simp

/-- A coerced cell that is not NA is a timestamp. -/
theorem coerceCell_notna_ts (c : Cell) (h : (coerceCell c).notna = true) :
    ∃ v, coerceCell c = Cell.ts v := by
  cases c <;> simp_all [coerceCell, Cell.notna]

/-- If the required columns of a stage are all present, each column listed in
`missing_cols` output being empty pins its presence flag. -/
theorem missing_cols_nil (t : Table) (cols : List Col) (h : missing_cols t cols = [])
    (c : Col) (hc : c ∈ cols) : t.hasCol c = true := by
  have := List.filter_eq_nil_iff.mp h c hc
  simp at this
  exact this

theorem coerceIf_true (c : Cell) : coerceIf true c = coerceCell c := rfl

/-- Every row of the coerced table comes from an input row with each column
passed through `coerceIf`. -/
theorem mem_safe_to_datetime (t : Table) (cols : List Col) (r : Row)
    (hr : r ∈ (safe_to_datetime t cols).rows) :
    ∃ r0 ∈ t.rows,
      r.reg = coerceIf (cols.contains Col.reg && t.hasReg) r0.reg ∧
      r.exp = coerceIf (cols.contains Col.exp && t.hasExp) r0.exp ∧
      r.first = coerceIf (cols.contains Col.first && t.hasFirst) r0.first ∧
      r.second = coerceIf (cols.contains Col.second && t.hasSecond) r0.second ∧
      r.plus = coerceIf (cols.contains Col.plus && t.hasPlus) r0.plus := by
  simp only [safe_to_datetime, List.mem_map] at hr
  obtain ⟨r0, h0, rfl⟩ := hr
  exact ⟨r0, h0, rfl, rfl, rfl, rfl, rfl⟩

/-- A day delta between two coerced, non-missing cells is always defined. -/
theorem delta_days_isSome (a b : Cell) (ha : a.notna = true) (hb : b.notna = true)
    (ha2 : ∃ c, a = coerceCell c) (hb2 : ∃ c, b = coerceCell c) :
    (delta_days a b).isSome = true := by
  obtain ⟨ca, rfl⟩ := ha2
  obtain ⟨cb, rfl⟩ := hb2
  obtain ⟨va, hva⟩ := coerceCell_notna_ts ca ha
  obtain ⟨vb, hvb⟩ := coerceCell_notna_ts cb hb
  rw [hva, hvb]
  simp [delta_days, Cell.toTime]

/-- A full stage-1 report is the report of the coerced, filtered population. -/
theorem analyze_module1_full (t : Table) (r : Report1)
    (h : (analyze_module1 t).2.result = M1Result.full r) :
    r = m1_report ((safe_to_datetime t [Col.reg, Col.exp, Col.first]).rows.filter
      (fun x => x.first.notna)) ∧
    missing_cols t [Col.first, Col.exp] = [] ∧
    ((safe_to_datetime t [Col.reg, Col.exp, Col.first]).rows.filter
      (fun x => x.first.notna)).length ≠ 0 := by
  by_cases hmiss : missing_cols t [Col.first, Col.exp] = []
  · by_cases hb : ((safe_to_datetime t [Col.reg, Col.exp, Col.first]).rows.filter
        (fun x => x.first.notna)).length = 0
    · simp [analyze_module1, m1_go, hmiss, hb] at h
    · simp [analyze_module1, m1_go, hmiss, hb] at h
      exact ⟨h.symm, hmiss, hb⟩
  · simp [analyze_module1, hmiss] at h

/-- A full stage-2 report is the report of the coerced, filtered population. -/
theorem analyze_module2_full (t : Table) (r : Report2)
    (h : (analyze_module2 t).2.result = M2Result.full r) :
    r = m2_report ((safe_to_datetime t [Col.first, Col.second]).rows.filter
      (fun x => x.first.notna)) ∧
    missing_cols t [Col.first, Col.second] = [] ∧
    ((safe_to_datetime t [Col.first, Col.second]).rows.filter
      (fun x => x.first.notna)).length ≠ 0 := by
  by_cases hmiss : missing_cols t [Col.first, Col.second] = []
  · by_cases hb : ((safe_to_datetime t [Col.first, Col.second]).rows.filter
        (fun x => x.first.notna)).length = 0
    · simp [analyze_module2, m2_go, hmiss, hb] at h
    · simp [analyze_module2, m2_go, hmiss, hb] at h
      exact ⟨h.symm, hmiss, hb⟩
  · simp [analyze_module2, hmiss] at h

/-- A full stage-3 report is the report of the coerced table. -/
theorem analyze_module3_full (t : Table) (r : Report3)
    (h : (analyze_module3 t).2.result = M3Result.full r) :
    r = m3_report (safe_to_datetime t [Col.second, Col.plus]) ∧
    missing_cols t [Col.second, Col.plus] = [] ∧
    ((safe_to_datetime t [Col.second, Col.plus]).rows.filter
      (fun x => x.second.notna)).length ≠ 0 := by
  by_cases hmiss : missing_cols t [Col.second, Col.plus] = []
  · by_cases hb : ((safe_to_datetime t [Col.second, Col.plus]).rows.filter
        (fun x => x.second.notna)).length = 0
    · simp [analyze_module3, m3_go, hmiss, hb] at h
    · simp [analyze_module3, m3_go, hmiss, hb] at h
      exact ⟨h.symm, hmiss, hb⟩
  · simp [analyze_module3, hmiss] at h

/-- Stage-1 buckets are exhaustive over the fixed order, so the reindexed
counts sum to the population size. -/
theorem m1_report_sums (base : List Row) :
    ((m1_report base).dist.map Prod.snd).sum = base.length ∧
    (m1_report base).sumCheck = base.length ∧
    (m1_report base).nFirst = base.length := by
  have key : (order1.map (m1_dist base)).sum = base.length :=
    sum_countP_eq_length (fun r => bucket1 (m1_delta r)) order1 (by decide) base
      (fun a _ => mem_order1 _)
  refine ⟨?_, key, rfl⟩
  simpa only [m1_report, List.map_map, Function.comp, m1_dist] using key

/-- Stage-2 counts over the fixed order plus the subtraction entry sum to
the denominator, provided every completed row has a defined delta. -/
theorem m2_report_sums (base : List Row)
    (hts : ∀ r ∈ base, r.second.notna = true → (m2_delta r).isSome = true) :
    ((m2_report base).dist.map Prod.snd).sum = base.length ∧
    (m2_report base).sumCheck = base.length ∧
    (m2_report base).baseN = base.length := by
  have hmem : ∀ r ∈ base.filter (fun x => x.second.notna),
      bucket2 (m2_delta r) ∈ [B2.d1to7, B2.d8to14, B2.d15to20, B2.over20, B2.reversed] := by
    intro r hr
    have h2 := List.mem_filter.mp hr
    obtain ⟨x, hx⟩ := Option.isSome_iff_exists.mp (hts r h2.1 h2.2)
    rw [hx]
    exact bucket2_some_mem x
  have h5 := sum_countP_eq_length (fun r => bucket2 (m2_delta r)) _ (by decide)
    (base.filter (fun x => x.second.notna)) hmem
  have hle : (base.filter (fun x => x.second.notna)).length ≤ base.length :=
    List.length_filter_le _ _
  have key : (order2.map (m2_dist (base.filter (fun x => x.second.notna)) base.length
      (base.filter (fun x => x.second.notna)).length)).sum = base.length := by
    simp only [List.map_cons, List.map_nil, List.sum_cons, List.sum_nil] at h5
    have e1 : (B2.d1to7 = B2.notYet) = False := by simp
    have e2 : (B2.d8to14 = B2.notYet) = False := by simp
    have e3 : (B2.d15to20 = B2.notYet) = False := by simp
    have e4 : (B2.over20 = B2.notYet) = False := by simp
    have e5 : (B2.reversed = B2.notYet) = False := by simp
    have e6 : (B2.notYet = B2.notYet) = True := by simp
    simp only [order2, m2_dist, List.map_cons, List.map_nil, List.sum_cons, List.sum_nil,
      e1, e2, e3, e4, e5, e6, if_false, if_true]
    omega
  refine ⟨?_, key, rfl⟩
  simpa only [m2_report, List.map_map, Function.comp] using key

/-- Stage-3 counts over the fixed order plus the subtraction entry sum to
the denominator, provided every upgraded row has a defined delta. -/
theorem m3_report_sums (df2 : Table)
    (hts : ∀ r ∈ df2.rows, r.second.notna = true → r.plus.notna = true →
      (m3_delta r).isSome = true) :
    ((m3_report df2).dist.map Prod.snd).sum =
      (df2.rows.filter (fun x => x.second.notna)).length ∧
    (m3_report df2).sumCheck = (df2.rows.filter (fun x => x.second.notna)).length ∧
    (m3_report df2).baseN = (df2.rows.filter (fun x => x.second.notna)).length := by
  have hmem : ∀ r ∈ (df2.rows.filter (fun x => x.second.notna)).filter
      (fun x => x.plus.notna),
      bucket3 (m3_delta r) ∈
        [B3.d1to7, B3.d8to14, B3.d15to21, B3.d22to28, B3.over28, B3.reversed] := by
    intro r hr
    have h2 := List.mem_filter.mp hr
    have h1 := List.mem_filter.mp h2.1
    obtain ⟨x, hx⟩ := Option.isSome_iff_exists.mp (hts r h1.1 h1.2 h2.2)
    rw [hx]
    exact bucket3_some_mem x
  have h6 := sum_countP_eq_length (fun r => bucket3 (m3_delta r)) _ (by decide)
    ((df2.rows.filter (fun x => x.second.notna)).filter (fun x => x.plus.notna)) hmem
  have hle : ((df2.rows.filter (fun x => x.second.notna)).filter
      (fun x => x.plus.notna)).length ≤ (df2.rows.filter (fun x => x.second.notna)).length :=
    List.length_filter_le _ _
  have key : (order3.map (m3_dist
      ((df2.rows.filter (fun x => x.second.notna)).filter (fun x => x.plus.notna))
      (df2.rows.filter (fun x => x.second.notna)).length
      ((df2.rows.filter (fun x => x.second.notna)).filter
        (fun x => x.plus.notna)).length)).sum =
      (df2.rows.filter (fun x => x.second.notna)).length := by
    simp only [List.map_cons, List.map_nil, List.sum_cons, List.sum_nil] at h6
    have e1 : (B3.d1to7 = B3.notYet) = False := by simp
    have e2 : (B3.d8to14 = B3.notYet) = False := by simp
    have e3 : (B3.d15to21 = B3.notYet) = False := by simp
    have e4 : (B3.d22to28 = B3.notYet) = False := by simp
    have e5 : (B3.over28 = B3.notYet) = False := by simp
    have e6 : (B3.reversed = B3.notYet) = False := by simp
    have e7 : (B3.notYet = B3.notYet) = True := by simp
    simp only [order3, m3_dist, List.map_cons, List.map_nil, List.sum_cons, List.sum_nil,
      e1, e2, e3, e4, e5, e6, e7, if_false, if_true]
    omega
  refine ⟨?_, key, rfl⟩
  simpa only [m3_report, List.map_map, Function.comp] using key

/-! ### Claims -/

/-- Claim C2: stage-1 classification of a defined delta follows
first-match-wins over: `δ < 0` → 先首充再领取体验金; `0 ≤ δ < 1` →
同时领取体验金并首充人群; `1 ≤ δ ≤ 3` → 1-3天; `3 < δ ≤ 6` → 4-6天;
`6 < δ ≤ 10` → 7-10天; `δ > 10` → 10天以上.  In particular each `≤`-edge
(3, 6, 10) stays in the lower numeric bucket, and delta exactly 1 lands in
1-3天 per the `1 ≤ δ` bound. -/
theorem claim_C2_stage1_edges (x : ℚ) :
    (x < 0 → bucket1 (some x) = B1.depositFirst) ∧
    (0 ≤ x → x < 1 → bucket1 (some x) = B1.sameDay) ∧
    (1 ≤ x → x ≤ 3 → bucket1 (some x) = B1.d1to3) ∧
    (3 < x → x ≤ 6 → bucket1 (some x) = B1.d4to6) ∧
    (6 < x → x ≤ 10 → bucket1 (some x) = B1.d7to10) ∧
    (10 < x → bucket1 (some x) = B1.over10) := by
  refine ⟨fun h => ?_, fun h0 h1 => ?_, fun h1 h3 => ?_, fun h3 h6 => ?_,
    fun h6 h10 => ?_, fun h10 => ?_⟩ <;> simp only [bucket1]
  · rw [if_pos h]
  · rw [if_neg (by linarith), if_pos h1]
  · rw [if_neg (by linarith), if_neg (by linarith), if_pos h3]
  · rw [if_neg (by linarith), if_neg (by linarith), if_neg (by linarith), if_pos h6]
  · rw [if_neg (by linarith), if_neg (by linarith), if_neg (by linarith),
      if_neg (by linarith), if_pos h10]
  · rw [if_neg (by linarith), if_neg (by linarith), if_neg (by linarith),
      if_neg (by linarith), if_neg (by linarith)]

/-- Witness for C2 at the bucket edges 1, 3, 6 and 10 days. -/
theorem claim_C2_stage1_edges_witness :
    bucket1 (some 1) = B1.d1to3 ∧ bucket1 (some 3) = B1.d1to3 ∧
    bucket1 (some 6) = B1.d4to6 ∧ bucket1 (some 10) = B1.d7to10 :=
  ⟨(claim_C2_stage1_edges 1).2.2.1 (by norm_num) (by norm_num),
   (claim_C2_stage1_edges 3).2.2.1 (by norm_num) (by norm_num),
   (claim_C2_stage1_edges 6).2.2.2.1 (by norm_num) (by norm_num),
   (claim_C2_stage1_edges 10).2.2.2.2.1 (by norm_num) (by norm_num)⟩

/-- Claim C1: whenever a stage runs to a full report, the distribution
counts over the stage's fixed bucket order sum to the stage's denominator
(stage 1 and stage 2: rows of the coerced table with 首充时间 present,
stage 3: rows with 二充时间 present), and that sum is exactly the 分布加总校验
field of the report. -/
theorem claim_C1_sum_check (t : Table) :
    (∀ r1 : Report1, (analyze_module1 t).2.result = M1Result.full r1 →
      (r1.dist.map Prod.snd).sum = r1.nFirst ∧ r1.sumCheck = r1.nFirst ∧
      r1.nFirst = ((safe_to_datetime t [Col.reg, Col.exp, Col.first]).rows.filter
        (fun x => x.first.notna)).length) ∧
    (∀ r2 : Report2, (analyze_module2 t).2.result = M2Result.full r2 →
      (r2.dist.map Prod.snd).sum = r2.baseN ∧ r2.sumCheck = r2.baseN ∧
      r2.baseN = ((safe_to_datetime t [Col.first, Col.second]).rows.filter
        (fun x => x.first.notna)).length) ∧
    (∀ r3 : Report3, (analyze_module3 t).2.result = M3Result.full r3 →
      (r3.dist.map Prod.snd).sum = r3.baseN ∧ r3.sumCheck = r3.baseN ∧
      r3.baseN = ((safe_to_datetime t [Col.second, Col.plus]).rows.filter
        (fun x => x.second.notna)).length) := by
  refine ⟨fun r1 h => ?_, fun r2 h => ?_, fun r3 h => ?_⟩
  · obtain ⟨rfl, hmiss, hb⟩ := analyze_module1_full t r1 h
    obtain ⟨h1, h2, h3⟩ := m1_report_sums
      ((safe_to_datetime t [Col.reg, Col.exp, Col.first]).rows.filter
        (fun x => x.first.notna))
    exact ⟨by rw [h1, h3], by rw [h2, h3], h3⟩
  · obtain ⟨rfl, hmiss, hb⟩ := analyze_module2_full t r2 h
    have hf : t.hasFirst = true :=
      missing_cols_nil t [Col.first, Col.second] hmiss Col.first (by simp)
    have hs : t.hasSecond = true :=
      missing_cols_nil t [Col.first, Col.second] hmiss Col.second (by simp)
    have hts : ∀ r ∈ (safe_to_datetime t [Col.first, Col.second]).rows.filter
        (fun x => x.first.notna), r.second.notna = true → (m2_delta r).isSome = true := by
      intro r hr hsec
      have hm := List.mem_filter.mp hr
      obtain ⟨r0, h0, hregE, hexpE, hfirstE, hsecondE, hplusE⟩ :=
        mem_safe_to_datetime t [Col.first, Col.second] r hm.1
      apply delta_days_isSome r.second r.first hsec hm.2
      · exact ⟨r0.second, by rw [hsecondE, hs]; rfl⟩
      · exact ⟨r0.first, by rw [hfirstE, hf]; rfl⟩
    obtain ⟨h1, h2, h3⟩ := m2_report_sums
      ((safe_to_datetime t [Col.first, Col.second]).rows.filter (fun x => x.first.notna)) hts
    exact ⟨by rw [h1, h3], by rw [h2, h3], h3⟩
  · obtain ⟨rfl, hmiss, hb⟩ := analyze_module3_full t r3 h
    have hs : t.hasSecond = true :=
      missing_cols_nil t [Col.second, Col.plus] hmiss Col.second (by simp)
    have hp : t.hasPlus = true :=
      missing_cols_nil t [Col.second, Col.plus] hmiss Col.plus (by simp)
    have hts : ∀ r ∈ (safe_to_datetime t [Col.second, Col.plus]).rows,
        r.second.notna = true → r.plus.notna = true → (m3_delta r).isSome = true := by
      intro r hr hsec hplus
      obtain ⟨r0, h0, hregE, hexpE, hfirstE, hsecondE, hplusE⟩ :=
        mem_safe_to_datetime t [Col.second, Col.plus] r hr
      apply delta_days_isSome r.plus r.second hplus hsec
      · exact ⟨r0.plus, by rw [hplusE, hp]; rfl⟩
      · exact ⟨r0.second, by rw [hsecondE, hs]; rfl⟩
    obtain ⟨h1, h2, h3⟩ := m3_report_sums (safe_to_datetime t [Col.second, Col.plus]) hts
    exact ⟨by rw [h1, h3], by rw [h2, h3], h3⟩

/-- Concrete two-row table used by witnesses: every column present, the
first row has the full funnel at one-day steps, the second row stops after
the first deposit. -/
def tableW : Table :=
  { hasReg := true
    hasExp := true
    hasFirst := true
    hasSecond := true
    hasPlus := true
    rows :=
      [ { reg := .ts 0, exp := .ts 0, first := .ts 86400, second := .ts 172800,
          plus := .ts 259200, extra := [] },
        { reg := .ts 0, exp := .ts 43200, first := .ts 86400, second := .na,
          plus := .na, extra := [] } ] }

/-- Stage-1 population of the witness table. -/
def baseW1 : List Row :=
  (safe_to_datetime tableW [Col.reg, Col.exp, Col.first]).rows.filter
    (fun x => x.first.notna)

/-- Stage-2 population of the witness table. -/
def baseW2 : List Row :=
  (safe_to_datetime tableW [Col.first, Col.second]).rows.filter
    (fun x => x.first.notna)

/-- Stage-3 coerced witness table. -/
def dfW3 : Table := safe_to_datetime tableW [Col.second, Col.plus]

/-- Witness for C1 on the concrete table `tableW`. -/
theorem claim_C1_sum_check_witness :
    ((m1_report baseW1).dist.map Prod.snd).sum = (m1_report baseW1).nFirst ∧
    ((m2_report baseW2).dist.map Prod.snd).sum = (m2_report baseW2).baseN ∧
    ((m3_report dfW3).dist.map Prod.snd).sum = (m3_report dfW3).baseN :=
  ⟨((claim_C1_sum_check tableW).1 (m1_report baseW1) rfl).1,
   ((claim_C1_sum_check tableW).2.1 (m2_report baseW2) rfl).1,
   ((claim_C1_sum_check tableW).2.2 (m3_report dfW3) rfl).1⟩

/-- Counterexample to the C2 parenthetical as stated: at the bucket edge of
exactly 1.0 days the row falls into 1-3天, the upper of the two adjacent
buckets, not the lower same-day bucket, because the same-day rule is the
strict `x < 1`. -/
theorem claim_C2_edge_one_counterexample :
    bucket1 (some 1) = B1.d1to3 ∧ bucket1 (some 1) ≠ B1.sameDay := by
  decide

/-- Claim C5: a delta of exactly 0 goes to the dedicated same-day bucket in
stage 1 (rule `0 ≤ δ < 1`), and to the lowest numeric bucket 1-7天 in
stages 2 and 3, never to a negative or missing bucket. -/
theorem claim_C5_delta_zero :
    bucket1 (some 0) = B1.sameDay ∧ bucket2 (some 0) = B2.d1to7 ∧
    bucket3 (some 0) = B3.d1to7 := by
  decide

/-- Claim C3: in a full stage-2 report the 尚未完成二充 entry equals the
denominator (rows with 首充时间 present) minus the number of those rows with
二充时间 present, obtained by subtraction rather than by per-row bucketing. -/
theorem claim_C3_not_yet_subtraction (t : Table) (r2 : Report2)
    (h : (analyze_module2 t).2.result = M2Result.full r2) :
    r2.baseN = ((safe_to_datetime t [Col.first, Col.second]).rows.filter
      (fun x => x.first.notna)).length ∧
    r2.nSecond = (((safe_to_datetime t [Col.first, Col.second]).rows.filter
      (fun x => x.first.notna)).filter (fun x => x.second.notna)).length ∧
    List.lookup B2.notYet r2.dist = some (r2.baseN - r2.nSecond) := by
  obtain ⟨rfl, hmiss, hb⟩ := analyze_module2_full t r2 h
  exact ⟨rfl, rfl, rfl⟩

/-- Scenario table for C3: five rows with a first deposit, of which two lack
the second deposit; the three completed rows bucket into 时间倒流, 1-7天 and
20天以上. -/
def tableC3 : Table :=
  { hasReg := false
    hasExp := false
    hasFirst := true
    hasSecond := true
    hasPlus := false
    rows :=
      [ { reg := .na, exp := .na, first := .ts 86400, second := .na,
          plus := .na, extra := [] },
        { reg := .na, exp := .na, first := .ts 86400, second := .na,
          plus := .na, extra := [] },
        { reg := .na, exp := .na, first := .ts 86400, second := .ts 0,
          plus := .na, extra := [] },
        { reg := .na, exp := .na, first := .ts 86400, second := .ts 518400,
          plus := .na, extra := [] },
        { reg := .na, exp := .na, first := .ts 86400, second := .ts 8812800,
          plus := .na, extra := [] } ] }

/-- Stage-2 population of the C3 scenario table. -/
def baseC3 : List Row :=
  (safe_to_datetime tableC3 [Col.first, Col.second]).rows.filter
    (fun x => x.first.notna)

/-- Witness for C3: on the scenario table the 尚未完成二充 count is exactly
2 = 5 − 3, whatever the other three rows bucket to. -/
theorem claim_C3_not_yet_subtraction_witness :
    List.lookup B2.notYet (m2_report baseC3).dist = some 2 ∧
    (m2_report baseC3).baseN = 5 ∧ (m2_report baseC3).nSecond = 3 := by
  have h := claim_C3_not_yet_subtraction tableC3 (m2_report baseC3) rfl
  refine ⟨?_, ?_, ?_⟩
  · rw [h.2.2]
    decide
  · decide
  · decide

/-- Claim C4: in a full stage-3 report the 全表PLUS总数 and 未二充直接PLUS
fields are counted over the whole coerced table, before the denominator
filter, while the PLUS转化率 is the denominator-scoped upgrade count divided
by the denominator (rounded to 4 decimals). -/
theorem claim_C4_stage3_cross_population (t : Table) (r3 : Report3)
    (h : (analyze_module3 t).2.result = M3Result.full r3) :
    r3.plusTotal = ((safe_to_datetime t [Col.second, Col.plus]).rows.filter
      (fun x => x.plus.notna)).length ∧
    r3.directPlus = (((safe_to_datetime t [Col.second, Col.plus]).rows.filter
      (fun x => x.plus.notna)).filter (fun x => x.second.isna)).length ∧
    r3.baseN = ((safe_to_datetime t [Col.second, Col.plus]).rows.filter
      (fun x => x.second.notna)).length ∧
    r3.rate = some (roundTo 4
      (((((safe_to_datetime t [Col.second, Col.plus]).rows.filter
            (fun x => x.second.notna)).filter (fun x => x.plus.notna)).length : ℚ) /
        (((safe_to_datetime t [Col.second, Col.plus]).rows.filter
            (fun x => x.second.notna)).length : ℚ))) := by
  obtain ⟨rfl, hmiss, hb⟩ := analyze_module3_full t r3 h
  refine ⟨rfl, rfl, rfl, ?_⟩
  simp only [m3_report]
  rw [if_pos hb]

/-- Scenario table for C4: three rows upgraded to PLUS without ever reaching
the second deposit, ten rows with a second deposit of which four upgraded. -/
def tableC4 : Table :=
  { hasReg := false
    hasExp := false
    hasFirst := false
    hasSecond := true
    hasPlus := true
    rows :=
      [ { reg := .na, exp := .na, first := .na, second := .na,
          plus := .ts 86400, extra := [] },
        { reg := .na, exp := .na, first := .na, second := .na,
          plus := .ts 86400, extra := [] },
        { reg := .na, exp := .na, first := .na, second := .na,
          plus := .ts 86400, extra := [] },
        { reg := .na, exp := .na, first := .na, second := .ts 0,
          plus := .ts 259200, extra := [] },
        { reg := .na, exp := .na, first := .na, second := .ts 0,
          plus := .ts 259200, extra := [] },
        { reg := .na, exp := .na, first := .na, second := .ts 0,
          plus := .ts 259200, extra := [] },
        { reg := .na, exp := .na, first := .na, second := .ts 0,
          plus := .ts 259200, extra := [] },
        { reg := .na, exp := .na, first := .na, second := .ts 0,
          plus := .na, extra := [] },
        { reg := .na, exp := .na, first := .na, second := .ts 0,
          plus := .na, extra := [] },
        { reg := .na, exp := .na, first := .na, second := .ts 0,
          plus := .na, extra := [] },
        { reg := .na, exp := .na, first := .na, second := .ts 0,
          plus := .na, extra := [] },
        { reg := .na, exp := .na, first := .na, second := .ts 0,
          plus := .na, extra := [] },
        { reg := .na, exp := .na, first := .na, second := .ts 0,
          plus := .na, extra := [] } ] }

/-- Coerced C4 scenario table. -/
def dfC4 : Table := safe_to_datetime tableC4 [Col.second, Col.plus]

/-- Witness for C4: full-table PLUS total 7, direct-PLUS 3, denominator 10,
upgrade rate 0.4. -/
theorem claim_C4_stage3_cross_population_witness :
    (m3_report dfC4).plusTotal = 7 ∧ (m3_report dfC4).directPlus = 3 ∧
    (m3_report dfC4).baseN = 10 ∧ (m3_report dfC4).rate = some (2 / 5) := by
  have h := claim_C4_stage3_cross_population tableC4 (m3_report dfC4) rfl
  refine ⟨?_, ?_, ?_, ?_⟩
  · rw [h.1]
    decide
  · rw [h.2.1]
    decide
  · rw [h.2.2.1]
    decide
  · rw [h.2.2.2]
    have l1 : ((((safe_to_datetime tableC4 [Col.second, Col.plus]).rows.filter
        (fun x => x.second.notna)).filter (fun x => x.plus.notna)).length : ℕ) = 4 := by
      decide
    have l2 : (((safe_to_datetime tableC4 [Col.second, Col.plus]).rows.filter
        (fun x => x.second.notna)).length : ℕ) = 10 := by
      decide
    rw [l1, l2]
    norm_num [roundTo, roundHalfEven]

/-- Paths of `analyze_module1` under a decided column check. -/
theorem analyze_module1_eq (t : Table) (h : missing_cols t [Col.first, Col.exp] = []) :
    analyze_module1 t = (safe_to_datetime t [Col.reg, Col.exp, Col.first],
      m1_go (safe_to_datetime t [Col.reg, Col.exp, Col.first])) := by
  simp [analyze_module1, h]

theorem analyze_module1_eq_err (t : Table)
    (h : missing_cols t [Col.first, Col.exp] ≠ []) :
    analyze_module1 t = (t, ⟨M1Result.empty, Chart.empty, Chart.empty,
      [errMsg (missing_cols t [Col.first, Col.exp])], []⟩) := by
  simp [analyze_module1, h]

/-- Paths of `analyze_module2` under a decided column check. -/
theorem analyze_module2_eq (t : Table) (h : missing_cols t [Col.first, Col.second] = []) :
    analyze_module2 t = (safe_to_datetime t [Col.first, Col.second],
      m2_go (safe_to_datetime t [Col.first, Col.second])) := by
  simp [analyze_module2, h]

theorem analyze_module2_eq_err (t : Table)
    (h : missing_cols t [Col.first, Col.second] ≠ []) :
    analyze_module2 t = (t, ⟨M2Result.empty, Chart.empty, Chart.empty,
      [errMsg (missing_cols t [Col.first, Col.second])], []⟩) := by
  simp [analyze_module2, h]

/-- Paths of `analyze_module3` under a decided column check. -/
theorem analyze_module3_eq (t : Table) (h : missing_cols t [Col.second, Col.plus] = []) :
    analyze_module3 t = (safe_to_datetime t [Col.second, Col.plus],
      m3_go (safe_to_datetime t [Col.second, Col.plus])) := by
  simp [analyze_module3, h]

theorem analyze_module3_eq_err (t : Table)
    (h : missing_cols t [Col.second, Col.plus] ≠ []) :
    analyze_module3 t = (t, ⟨M3Result.empty, Chart.empty, Chart.empty,
      [errMsg (missing_cols t [Col.second, Col.plus])], []⟩) := by
  simp [analyze_module3, h]

/-- A table with no columns at all, used to exercise the schema-error path. -/
def tableEmptyCols : Table :=
  { hasReg := false, hasExp := false, hasFirst := false, hasSecond := false,
    hasPlus := false, rows := [] }

/-- Counterexample to C6 as stated: when both required columns of stage 1
are absent, the error list is a single joined message, not a list whose
elements are exactly the missing column names. -/
theorem claim_C6_counterexample :
    (missing_cols tableEmptyCols [Col.first, Col.exp]).map Col.name =
      ["首充时间", "体验金领取时间"] ∧
    (analyze_module1 tableEmptyCols).2.errors = ["缺少列：首充时间, 体验金领取时间"] ∧
    (analyze_module1 tableEmptyCols).2.errors ≠ ["首充时间", "体验金领取时间"] := by
  refine ⟨by decide, rfl, by decide⟩

/-- Claim C6 (amended): for every table missing a required column of the
selected stage, the stage returns the table untouched together with a
one-element error list whose message names exactly the missing columns
(prefix 缺少列：, comma-joined, in required order), an empty report, no chart
payloads and no warnings, performing no further computation for the stage. -/
theorem claim_C6_missing_columns (t : Table) :
    (missing_cols t [Col.first, Col.exp] ≠ [] →
      analyze_module1 t = (t, ⟨M1Result.empty, Chart.empty, Chart.empty,
        [errMsg (missing_cols t [Col.first, Col.exp])], []⟩)) ∧
    (missing_cols t [Col.first, Col.second] ≠ [] →
      analyze_module2 t = (t, ⟨M2Result.empty, Chart.empty, Chart.empty,
        [errMsg (missing_cols t [Col.first, Col.second])], []⟩)) ∧
    (missing_cols t [Col.second, Col.plus] ≠ [] →
      analyze_module3 t = (t, ⟨M3Result.empty, Chart.empty, Chart.empty,
        [errMsg (missing_cols t [Col.second, Col.plus])], []⟩)) :=
  ⟨analyze_module1_eq_err t, analyze_module2_eq_err t, analyze_module3_eq_err t⟩

/-- Witness for the amended C6 at the no-columns table. -/
theorem claim_C6_missing_columns_witness :
    analyze_module1 tableEmptyCols = (tableEmptyCols, ⟨M1Result.empty, Chart.empty,
      Chart.empty, [errMsg [Col.first, Col.exp]], []⟩) ∧
    analyze_module2 tableEmptyCols = (tableEmptyCols, ⟨M2Result.empty, Chart.empty,
      Chart.empty, [errMsg [Col.first, Col.second]], []⟩) ∧
    analyze_module3 tableEmptyCols = (tableEmptyCols, ⟨M3Result.empty, Chart.empty,
      Chart.empty, [errMsg [Col.second, Col.plus]], []⟩) :=
  ⟨(claim_C6_missing_columns tableEmptyCols).1 (by decide),
   (claim_C6_missing_columns tableEmptyCols).2.1 (by decide),
   (claim_C6_missing_columns tableEmptyCols).2.2 (by decide)⟩

/-- Claim C7: when a stage's required columns are present but the anchor
column filters to an empty population, the stage returns its minimal report
with denominator 0, exactly one warning, empty chart payloads and an empty
error list, so the endpoint success flag computed from that error list is
true; in general the flag is true exactly when the error list is empty, so
warnings never flip it. -/
theorem claim_C7_empty_population (t : Table) :
    (missing_cols t [Col.first, Col.exp] = [] →
      ((safe_to_datetime t [Col.reg, Col.exp, Col.first]).rows.filter
        (fun x => x.first.notna)).length = 0 →
      (analyze_module1 t).2 = ⟨M1Result.minimal 0, Chart.empty, Chart.empty, [],
        ["首充时间全为空，无法生成分布图。"]⟩ ∧
      runOk (analyze_module1 t).2.errors = true) ∧
    (missing_cols t [Col.first, Col.second] = [] →
      ((safe_to_datetime t [Col.first, Col.second]).rows.filter
        (fun x => x.first.notna)).length = 0 →
      (analyze_module2 t).2 = ⟨M2Result.minimal 0, Chart.empty, Chart.empty, [],
        ["首充时间全为空，无法分析二充。"]⟩ ∧
      runOk (analyze_module2 t).2.errors = true) ∧
    (missing_cols t [Col.second, Col.plus] = [] →
      ((safe_to_datetime t [Col.second, Col.plus]).rows.filter
        (fun x => x.second.notna)).length = 0 →
      (analyze_module3 t).2 = ⟨M3Result.minimal
          ((safe_to_datetime t [Col.second, Col.plus]).rows.filter
            (fun x => x.plus.notna)).length
          (((safe_to_datetime t [Col.second, Col.plus]).rows.filter
            (fun x => x.plus.notna)).filter (fun x => x.second.isna)).length
          0, Chart.empty, Chart.empty, [],
        ["二充时间全为空：无法做“二充→PLUS”分布，但已返回全表PLUS来源。"]⟩ ∧
      runOk (analyze_module3 t).2.errors = true) ∧
    (∀ es : List String, runOk es = true ↔ es = []) := by
  refine ⟨fun hmiss hb => ?_, fun hmiss hb => ?_, fun hmiss hb => ?_, fun es => ?_⟩
  · rw [analyze_module1_eq t hmiss]
    exact ⟨by simp [m1_go, hb], by simp [m1_go, hb, runOk]⟩
  · rw [analyze_module2_eq t hmiss]
    exact ⟨by simp [m2_go, hb], by simp [m2_go, hb, runOk]⟩
  · rw [analyze_module3_eq t hmiss]
    exact ⟨by simp [m3_go, hb], by simp [m3_go, hb, runOk]⟩
  · simp [runOk, List.length_eq_zero]

/-- A table with all five columns present but every cell missing. -/
def tableAllNa : Table :=
  { hasReg := true, hasExp := true, hasFirst := true, hasSecond := true,
    hasPlus := true,
    rows := [ { reg := .na, exp := .na, first := .na, second := .na,
                plus := .na, extra := [] } ] }

/-- Witness for C7 at a one-row table whose anchor columns are all empty. -/
theorem claim_C7_empty_population_witness :
    (analyze_module1 tableAllNa).2 = ⟨M1Result.minimal 0, Chart.empty, Chart.empty, [],
      ["首充时间全为空，无法生成分布图。"]⟩ ∧
    (analyze_module2 tableAllNa).2 = ⟨M2Result.minimal 0, Chart.empty, Chart.empty, [],
      ["首充时间全为空，无法分析二充。"]⟩ ∧
    (analyze_module3 tableAllNa).2 = ⟨M3Result.minimal 0 0 0, Chart.empty, Chart.empty, [],
      ["二充时间全为空：无法做“二充→PLUS”分布，但已返回全表PLUS来源。"]⟩ ∧
    runOk (analyze_module1 tableAllNa).2.errors = true :=
  ⟨((claim_C7_empty_population tableAllNa).1 rfl rfl).1,
   ((claim_C7_empty_population tableAllNa).2.1 rfl rfl).1,
   ((claim_C7_empty_population tableAllNa).2.2.1 rfl rfl).1,
   ((claim_C7_empty_population tableAllNa).1 rfl rfl).2⟩

theorem coerceCell_idem (c : Cell) : coerceCell (coerceCell c) = coerceCell c := by
  cases c <;> rfl

theorem coerceIf_idem (b : Bool) (c : Cell) :
    coerceIf b (coerceIf b c) = coerceIf b c := by
  cases b <;> simp [coerceIf, coerceCell_idem]

/-- Coercion preserves the column flags, so `_missing_cols` is unchanged by
`_safe_to_datetime`. -/
theorem hasCol_safe (t : Table) (cols : List Col) (c : Col) :
    (safe_to_datetime t cols).hasCol c = t.hasCol c := by
  cases c <;> rfl

theorem missing_cols_safe (t : Table) (cols cols2 : List Col) :
    missing_cols (safe_to_datetime t cols) cols2 = missing_cols t cols2 := by
  simp only [missing_cols, hasCol_safe]

/-- `_safe_to_datetime` is idempotent on a table. -/
theorem safe_to_datetime_idem (t : Table) (cols : List Col) :
    safe_to_datetime (safe_to_datetime t cols) cols = safe_to_datetime t cols := by
  simp only [safe_to_datetime, List.map_map]
  congr 1
  apply List.map_congr_left
  intro r _
  simp [Function.comp, coerceIf_idem]

/-- Claim C8: running a stage a second time, on the table as left in place
by the first run, returns the same table and the same
(result, pie, bar, errors, warnings) tuple as the first run. -/
theorem claim_C8_idempotent (t : Table) :
    (analyze_module1 (analyze_module1 t).1).2 = (analyze_module1 t).2 ∧
    (analyze_module1 (analyze_module1 t).1).1 = (analyze_module1 t).1 ∧
    (analyze_module2 (analyze_module2 t).1).2 = (analyze_module2 t).2 ∧
    (analyze_module2 (analyze_module2 t).1).1 = (analyze_module2 t).1 ∧
    (analyze_module3 (analyze_module3 t).1).2 = (analyze_module3 t).2 ∧
    (analyze_module3 (analyze_module3 t).1).1 = (analyze_module3 t).1 := by
  have h1 : analyze_module1 (analyze_module1 t).1 = analyze_module1 t := by
    by_cases hmiss : missing_cols t [Col.first, Col.exp] = []
    · rw [analyze_module1_eq t hmiss]
      rw [analyze_module1_eq (safe_to_datetime t [Col.reg, Col.exp, Col.first])
        (by rw [missing_cols_safe]; exact hmiss)]
      rw [safe_to_datetime_idem]
    · rw [analyze_module1_eq_err t hmiss]
      exact analyze_module1_eq_err t hmiss
  have h2 : analyze_module2 (analyze_module2 t).1 = analyze_module2 t := by
    by_cases hmiss : missing_cols t [Col.first, Col.second] = []
    · rw [analyze_module2_eq t hmiss]
      rw [analyze_module2_eq (safe_to_datetime t [Col.first, Col.second])
        (by rw [missing_cols_safe]; exact hmiss)]
      rw [safe_to_datetime_idem]
    · rw [analyze_module2_eq_err t hmiss]
      exact analyze_module2_eq_err t hmiss
  have h3 : analyze_module3 (analyze_module3 t).1 = analyze_module3 t := by
    by_cases hmiss : missing_cols t [Col.second, Col.plus] = []
    · rw [analyze_module3_eq t hmiss]
      rw [analyze_module3_eq (safe_to_datetime t [Col.second, Col.plus])
        (by rw [missing_cols_safe]; exact hmiss)]
      rw [safe_to_datetime_idem]
    · rw [analyze_module3_eq_err t hmiss]
      exact analyze_module3_eq_err t hmiss
  exact ⟨by rw [h1], by rw [h1], by rw [h2], by rw [h2], by rw [h3], by rw [h3]⟩

/-- Claim C9: each stage changes its input table only by coercing its
designated timestamp columns in place (stage 1: 注册/体验金领取/首充,
stage 2: 首充/二充, stage 3: 二充/升级PLUS; nothing on the schema-error
path), and coercion preserves the column flags, the row count and the extra
columns, replaces exactly the listed and present columns by their coerced
cells, and leaves every other column's cells untouched; the per-row delta
and bucket values live only on the internal copy, never on the table (a
`Row` carries no such fields).  Non-designated columns of each stage are
spelled out explicitly. -/
theorem claim_C9_frame (t : Table) :
    ((analyze_module1 t).1 = if missing_cols t [Col.first, Col.exp] ≠ [] then t
      else safe_to_datetime t [Col.reg, Col.exp, Col.first]) ∧
    ((analyze_module2 t).1 = if missing_cols t [Col.first, Col.second] ≠ [] then t
      else safe_to_datetime t [Col.first, Col.second]) ∧
    ((analyze_module3 t).1 = if missing_cols t [Col.second, Col.plus] ≠ [] then t
      else safe_to_datetime t [Col.second, Col.plus]) ∧
    ((analyze_module1 t).1.rows.map Row.second = t.rows.map Row.second) ∧
    ((analyze_module1 t).1.rows.map Row.plus = t.rows.map Row.plus) ∧
    ((analyze_module2 t).1.rows.map Row.reg = t.rows.map Row.reg) ∧
    ((analyze_module2 t).1.rows.map Row.exp = t.rows.map Row.exp) ∧
    ((analyze_module2 t).1.rows.map Row.plus = t.rows.map Row.plus) ∧
    ((analyze_module3 t).1.rows.map Row.reg = t.rows.map Row.reg) ∧
    ((analyze_module3 t).1.rows.map Row.exp = t.rows.map Row.exp) ∧
    ((analyze_module3 t).1.rows.map Row.first = t.rows.map Row.first) ∧
    (∀ cols : List Col,
      (safe_to_datetime t cols).hasReg = t.hasReg ∧
      (safe_to_datetime t cols).hasExp = t.hasExp ∧
      (safe_to_datetime t cols).hasFirst = t.hasFirst ∧
      (safe_to_datetime t cols).hasSecond = t.hasSecond ∧
      (safe_to_datetime t cols).hasPlus = t.hasPlus ∧
      (safe_to_datetime t cols).rows.length = t.rows.length ∧
      (safe_to_datetime t cols).rows.map Row.extra = t.rows.map Row.extra ∧
      (safe_to_datetime t cols).rows.map Row.reg =
        t.rows.map (fun r => coerceIf (cols.contains Col.reg && t.hasReg) r.reg) ∧
      (safe_to_datetime t cols).rows.map Row.exp =
        t.rows.map (fun r => coerceIf (cols.contains Col.exp && t.hasExp) r.exp) ∧
      (safe_to_datetime t cols).rows.map Row.first =
        t.rows.map (fun r => coerceIf (cols.contains Col.first && t.hasFirst) r.first) ∧
      (safe_to_datetime t cols).rows.map Row.second =
        t.rows.map (fun r => coerceIf (cols.contains Col.second && t.hasSecond) r.second) ∧
      (safe_to_datetime t cols).rows.map Row.plus =
        t.rows.map (fun r => coerceIf (cols.contains Col.plus && t.hasPlus) r.plus)) := by
  have hcase1 : (analyze_module1 t).1 =
      if missing_cols t [Col.first, Col.exp] ≠ [] then t
      else safe_to_datetime t [Col.reg, Col.exp, Col.first] := by
    by_cases hmiss : missing_cols t [Col.first, Col.exp] = []
    · rw [analyze_module1_eq t hmiss, if_neg (by simp [hmiss])]
    · rw [analyze_module1_eq_err t hmiss, if_pos hmiss]
  have hcase2 : (analyze_module2 t).1 =
      if missing_cols t [Col.first, Col.second] ≠ [] then t
      else safe_to_datetime t [Col.first, Col.second] := by
    by_cases hmiss : missing_cols t [Col.first, Col.second] = []
    · rw [analyze_module2_eq t hmiss, if_neg (by simp [hmiss])]
    · rw [analyze_module2_eq_err t hmiss, if_pos hmiss]
  have hcase3 : (analyze_module3 t).1 =
      if missing_cols t [Col.second, Col.plus] ≠ [] then t
      else safe_to_datetime t [Col.second, Col.plus] := by
    by_cases hmiss : missing_cols t [Col.second, Col.plus] = []
    · rw [analyze_module3_eq t hmiss, if_neg (by simp [hmiss])]
    · rw [analyze_module3_eq_err t hmiss, if_pos hmiss]
  refine ⟨hcase1, hcase2, hcase3, ?_, ?_, ?_, ?_, ?_, ?_, ?_, ?_, fun cols => ?_⟩
  · rw [hcase1]; split <;> [rfl; (rw [safe_to_datetime, List.map_map]; rfl)]
  · rw [hcase1]; split <;> [rfl; (rw [safe_to_datetime, List.map_map]; rfl)]
  · rw [hcase2]; split <;> [rfl; (rw [safe_to_datetime, List.map_map]; rfl)]
  · rw [hcase2]; split <;> [rfl; (rw [safe_to_datetime, List.map_map]; rfl)]
  · rw [hcase2]; split <;> [rfl; (rw [safe_to_datetime, List.map_map]; rfl)]
  · rw [hcase3]; split <;> [rfl; (rw [safe_to_datetime, List.map_map]; rfl)]
  · rw [hcase3]; split <;> [rfl; (rw [safe_to_datetime, List.map_map]; rfl)]
  · rw [hcase3]; split <;> [rfl; (rw [safe_to_datetime, List.map_map]; rfl)]
  · refine ⟨rfl, rfl, rfl, rfl, rfl, by simp [safe_to_datetime], ?_, ?_, ?_, ?_, ?_, ?_⟩ <;>
      (rw [safe_to_datetime, List.map_map]; rfl)

theorem bucket2_some_ne_unknown (x : ℚ) : bucket2 (some x) ≠ B2.unknown := by
  have h := bucket2_some_mem x
  intro e
  rw [e] at h
  simp at h

theorem bucket3_some_ne_unknown (x : ℚ) : bucket3 (some x) ≠ B3.unknown := by
  have h := bucket3_some_mem x
  intro e
  rw [e] at h
  simp at h

/-- Claim C10: in stages 2 and 3, once the required columns are present,
every row of the bucketed subset (denominator rows whose successor timestamp
is present) has a defined delta, so the 未知 branch of the classifier is
unreachable there, and the reindex to the fixed order — which omits 未知 —
drops no bucketed row: the counts over the classifier's reachable labels sum
to the bucketed subset's size. -/
theorem claim_C10_unknown_unreachable (t : Table) :
    (missing_cols t [Col.first, Col.second] = [] →
      (∀ r ∈ ((safe_to_datetime t [Col.first, Col.second]).rows.filter
          (fun x => x.first.notna)).filter (fun x => x.second.notna),
        (m2_delta r).isSome = true ∧ bucket2 (m2_delta r) ≠ B2.unknown) ∧
      ([B2.d1to7, B2.d8to14, B2.d15to20, B2.over20, B2.reversed].map
          (fun b => (((safe_to_datetime t [Col.first, Col.second]).rows.filter
            (fun x => x.first.notna)).filter (fun x => x.second.notna)).countP
              (fun r => decide (bucket2 (m2_delta r) = b)))).sum =
        (((safe_to_datetime t [Col.first, Col.second]).rows.filter
          (fun x => x.first.notna)).filter (fun x => x.second.notna)).length) ∧
    (missing_cols t [Col.second, Col.plus] = [] →
      (∀ r ∈ ((safe_to_datetime t [Col.second, Col.plus]).rows.filter
          (fun x => x.second.notna)).filter (fun x => x.plus.notna),
        (m3_delta r).isSome = true ∧ bucket3 (m3_delta r) ≠ B3.unknown) ∧
      ([B3.d1to7, B3.d8to14, B3.d15to21, B3.d22to28, B3.over28, B3.reversed].map
          (fun b => (((safe_to_datetime t [Col.second, Col.plus]).rows.filter
            (fun x => x.second.notna)).filter (fun x => x.plus.notna)).countP
              (fun r => decide (bucket3 (m3_delta r) = b)))).sum =
        (((safe_to_datetime t [Col.second, Col.plus]).rows.filter
          (fun x => x.second.notna)).filter (fun x => x.plus.notna)).length) := by
  constructor
  · intro hmiss
    have hf : t.hasFirst = true :=
      missing_cols_nil t [Col.first, Col.second] hmiss Col.first (by simp)
    have hs : t.hasSecond = true :=
      missing_cols_nil t [Col.first, Col.second] hmiss Col.second (by simp)
    have hsome : ∀ r ∈ ((safe_to_datetime t [Col.first, Col.second]).rows.filter
        (fun x => x.first.notna)).filter (fun x => x.second.notna),
        (m2_delta r).isSome = true := by
      intro r hr
      have h2 := List.mem_filter.mp hr
      have h1 := List.mem_filter.mp h2.1
      obtain ⟨r0, h0, hregE, hexpE, hfirstE, hsecondE, hplusE⟩ :=
        mem_safe_to_datetime t [Col.first, Col.second] r h1.1
      apply delta_days_isSome r.second r.first h2.2 h1.2
      · exact ⟨r0.second, by rw [hsecondE, hs]; rfl⟩
      · exact ⟨r0.first, by rw [hfirstE, hf]; rfl⟩
    have hmem : ∀ r ∈ ((safe_to_datetime t [Col.first, Col.second]).rows.filter
        (fun x => x.first.notna)).filter (fun x => x.second.notna),
        bucket2 (m2_delta r) ∈ [B2.d1to7, B2.d8to14, B2.d15to20, B2.over20, B2.reversed] := by
      intro r hr
      obtain ⟨x, hx⟩ := Option.isSome_iff_exists.mp (hsome r hr)
      rw [hx]
      exact bucket2_some_mem x
    refine ⟨fun r hr => ⟨hsome r hr, ?_⟩, ?_⟩
    · obtain ⟨x, hx⟩ := Option.isSome_iff_exists.mp (hsome r hr)
      rw [hx]
      exact bucket2_some_ne_unknown x
    · exact sum_countP_eq_length (fun r => bucket2 (m2_delta r)) _ (by decide) _ hmem
  · intro hmiss
    have hs : t.hasSecond = true :=
      missing_cols_nil t [Col.second, Col.plus] hmiss Col.second (by simp)
    have hp : t.hasPlus = true :=
      missing_cols_nil t [Col.second, Col.plus] hmiss Col.plus (by simp)
    have hsome : ∀ r ∈ ((safe_to_datetime t [Col.second, Col.plus]).rows.filter
        (fun x => x.second.notna)).filter (fun x => x.plus.notna),
        (m3_delta r).isSome = true := by
      intro r hr
      have h2 := List.mem_filter.mp hr
      have h1 := List.mem_filter.mp h2.1
      obtain ⟨r0, h0, hregE, hexpE, hfirstE, hsecondE, hplusE⟩ :=
        mem_safe_to_datetime t [Col.second, Col.plus] r h1.1
      apply delta_days_isSome r.plus r.second h2.2 h1.2
      · exact ⟨r0.plus, by rw [hplusE, hp]; rfl⟩
      · exact ⟨r0.second, by rw [hsecondE, hs]; rfl⟩
    have hmem : ∀ r ∈ ((safe_to_datetime t [Col.second, Col.plus]).rows.filter
        (fun x => x.second.notna)).filter (fun x => x.plus.notna),
        bucket3 (m3_delta r) ∈
          [B3.d1to7, B3.d8to14, B3.d15to21, B3.d22to28, B3.over28, B3.reversed] := by
      intro r hr
      obtain ⟨x, hx⟩ := Option.isSome_iff_exists.mp (hsome r hr)
      rw [hx]
      exact bucket3_some_mem x
    refine ⟨fun r hr => ⟨hsome r hr, ?_⟩, ?_⟩
    · obtain ⟨x, hx⟩ := Option.isSome_iff_exists.mp (hsome r hr)
      rw [hx]
      exact bucket3_some_ne_unknown x
    · exact sum_countP_eq_length (fun r => bucket3 (m3_delta r)) _ (by decide) _ hmem

/-- Witness for C10 on the concrete table `tableW`. -/
theorem claim_C10_unknown_unreachable_witness :
    ([B2.d1to7, B2.d8to14, B2.d15to20, B2.over20, B2.reversed].map
        (fun b => (baseW2.filter (fun x => x.second.notna)).countP
          (fun r => decide (bucket2 (m2_delta r) = b)))).sum =
      (baseW2.filter (fun x => x.second.notna)).length ∧
    ([B3.d1to7, B3.d8to14, B3.d15to21, B3.d22to28, B3.over28, B3.reversed].map
        (fun b => ((dfW3.rows.filter (fun x => x.second.notna)).filter
          (fun x => x.plus.notna)).countP
            (fun r => decide (bucket3 (m3_delta r) = b)))).sum =
      ((dfW3.rows.filter (fun x => x.second.notna)).filter
        (fun x => x.plus.notna)).length :=
  ⟨((claim_C10_unknown_unreachable tableW).1 rfl).2,
   ((claim_C10_unknown_unreachable tableW).2 rfl).2⟩

end UAW
